import Mathlib

/-!
Verification of the image-compression codecs of this repository
(`QImg` index-map codec, `GradImg` single-gradient codec, `GradRgb`
per-channel-gradient codec, and the shared `splitIntoBoxes`,
`getLuminance`, `getBoxColors` utilities) against its specification.

Modelling conventions, used consistently below:

* JavaScript numbers whose computations stay exact in binary64 — all the
  integer and integer-ratio arithmetic of the codecs: positions, channel
  sums and means, `Math.floor`/`Math.ceil`/`Math.round` of integer
  ratios, and all serialization arithmetic — are modelled by exact
  integer arithmetic, with rationals kept unreduced (as
  numerator/denominator or total/count pairs) so every definition is
  kernel-evaluable.  (For an integer ratio `a/b` the binary64 quotient is
  less than `1/b` away from the exact value while any other outcome of
  `floor`/`ceil`/`round` is at least `1/b` away, so these operations are
  unperturbed by rounding.)
* The one computation that is **not** exact in binary64 — the luminance
  pipeline, whose values are irrational square roots that are summed and
  compared — is modelled bit-exactly by `Fp`, a normalized-mantissa
  model of non-negative binary64 values with round-to-nearest-even
  (`getLuminanceFp`, `totalLuminanceFp`, `averageLuminanceFp`,
  `lightPixelsFp`/`darkPixelsFp` and the `Fp` compressors built on
  them).  The exact fixed-point `getLuminance`/`Mean.le` versions are
  kept as the spec-side idealization ("luminance at least the mean, ties
  light") that the float comparison can disagree with.
* `Math.sqrt` is modelled inside `Fp` by a correctly rounded square root
  (`Fp.sqrt` over `natSqrt`), and on the fixed-point spec side by
  `natSqrt` directly, see `getLuminance`.
* The single NaN the code can produce (averaging an empty pixel set in
  `getBoxColors`, a `0/0`) is modelled by `Option`: `none` is NaN.
* `Uint8Array` is modelled as `List (Fin 256)`.  Reading past the end of
  a buffer yields JS `undefined`; it is modelled as the byte 0.  All such
  reads happen after the magic check of `fromBuffer` has passed, and no
  later code path can throw in `QImg.fromBuffer`, so error verdicts are
  unaffected; theorems about decoded field values are only instantiated
  at buffers long enough that no out-of-range read occurs.
* Thrown exceptions are modelled by `Except JsError`, with the error
  taxonomy of the specification (the source throws `Error` objects that
  differ only in their message).
-/

set_option maxRecDepth 100000

/-- Error taxonomy of the specification; each `throw` site of the source is
mapped to the category its message describes. -/
inductive JsError where
  | invalidArgument
  | formatError
  | encodingLimitExceeded
deriving DecidableEq, Repr

/-- A byte, the element type of `Uint8Array`. -/
abbrev Byte := Fin 256

/-- Fuel-driven integer square root (monotone bisection by the classical
digit-pair recursion); `isqrtFuel f n` is exact for `n < 4 ^ f`.  Used only
through `natSqrt`. -/
def isqrtFuel : ℕ → ℕ → ℕ
  | 0, n => n
  | fuel+1, n =>
    if n < 2 then n else
      let r := 2 * isqrtFuel fuel (n / 4)
      if (r+1)*(r+1) ≤ n then r+1 else r

/-- Truncated integer square root, exact for every argument below `4 ^ 64`
(all arguments in this development are below `2 ^ 107`).  Kernel-evaluable
stand-in for `Nat.sqrt`. -/
def natSqrt (n : ℕ) : ℕ := isqrtFuel 64 n

/-- A non-negative finite IEEE-754 binary64 value `m · 2 ^ e`, normalized
(`m = 0` or `2 ^ 52 ≤ m < 2 ^ 53`).  The luminance pipeline of the source
computes in JS numbers (binary64); every value it handles is non-negative
and far from overflow and underflow, so sign, infinity and subnormal cases
never arise, and the one reachable NaN (the `0/0` mean of an empty pixel
list) is modelled as `none` at its use site.  All operations round to
nearest, ties to even, exactly as binary64 arithmetic does. -/
structure Fp where
  m : ℕ
  e : ℤ
deriving DecidableEq, Repr

/-- Scale a positive mantissa up into `[2 ^ 52, 2 ^ 53)`. -/
def fpShiftUp : ℕ → ℕ → ℤ → ℕ × ℤ
  | 0, m, e => (m, e)
  | fuel + 1, m, e => if m < 2 ^ 52 then fpShiftUp fuel (m * 2) (e - 1) else (m, e)

/-- How many halvings bring `m` below `2 ^ 53`. -/
def fpExcess : ℕ → ℕ → ℕ
  | 0, _ => 0
  | fuel + 1, m => if m < 2 ^ 53 then 0 else fpExcess fuel (m / 2) + 1

/-- Round the exact value `m · 2 ^ e` to 53 significant bits, nearest,
ties to even (the binary64 rounding of every arithmetic result). -/
def fpRound (m : ℕ) (e : ℤ) : Fp :=
  if m = 0 then ⟨0, 0⟩
  else
    let d := fpExcess 200 m
    if d = 0 then
      let p := fpShiftUp 200 m e
      ⟨p.1, p.2⟩
    else
      let q := m / 2 ^ d
      let r := m % 2 ^ d
      let half := 2 ^ (d - 1)
      let q' := if half < r ∨ (r = half ∧ q % 2 = 1) then q + 1 else q
      if q' = 2 ^ 53 then ⟨2 ^ 52, e + d + 1⟩ else ⟨q', e + d⟩

/-- Exact conversion of a small integer (every integer the pipeline
converts is below `2 ^ 53`). -/
def Fp.ofNat (n : ℕ) : Fp := fpRound n 0

/-- Binary64 addition of non-negative values: align, add exactly,
round. -/
def Fp.add (a b : Fp) : Fp :=
  if a.m = 0 then b
  else if b.m = 0 then a
  else if b.e ≤ a.e then fpRound (a.m * 2 ^ (a.e - b.e).toNat + b.m) b.e
  else fpRound (b.m * 2 ^ (b.e - a.e).toNat + a.m) a.e

/-- Binary64 multiplication: multiply mantissas exactly, round. -/
def Fp.mul (a b : Fp) : Fp :=
  if a.m = 0 ∨ b.m = 0 then ⟨0, 0⟩ else fpRound (a.m * b.m) (a.e + b.e)

/-- Binary64 division: `none` for a zero divisor (the JS result is then
NaN or an infinity, and every use compares it with `>=`, which is false
either way).  Otherwise the quotient is computed to 54 bits plus an exact
remainder and rounded to nearest, ties to even. -/
def Fp.div (a b : Fp) : Option Fp :=
  if b.m = 0 then none
  else if a.m = 0 then some ⟨0, 0⟩
  else
    let n := a.m * 2 ^ 54
    let q0 := n / b.m
    let r0 := n % b.m
    let d : ℕ := if q0 < 2 ^ 54 then 1 else 2
    let q := q0 / 2 ^ d
    let r := q0 % 2 ^ d
    let lhs := 2 * (r * b.m + r0)
    let rhs := 2 ^ d * b.m
    let q' := if rhs < lhs ∨ (lhs = rhs ∧ q % 2 = 1) then q + 1 else q
    let e : ℤ := a.e - b.e - 54 + (d : ℤ)
    if q' = 2 ^ 53 then some ⟨2 ^ 52, e + 1⟩ else some ⟨q', e⟩

/-- Binary64 square root: bring the mantissa to an even exponent with
104-106 bits, take the integer root, and round to nearest (a tie is
impossible, since `√M = s + 1/2` has no integer solution). -/
def Fp.sqrt (a : Fp) : Fp :=
  if a.m = 0 then ⟨0, 0⟩
  else
    let M := if (a.e - 52) % 2 = 0 then a.m * 2 ^ 52 else a.m * 2 ^ 53
    let E := if (a.e - 52) % 2 = 0 then a.e - 52 else a.e - 53
    let s := natSqrt M
    let s' := if (2 * s + 1) ^ 2 < 4 * M then s + 1 else s
    if s' = 2 ^ 53 then ⟨2 ^ 52, E / 2 + 1⟩ else ⟨s', E / 2⟩

/-- The exact comparison `a >= b` (binary64 comparison of finite values is
exact). -/
def Fp.ge (a b : Fp) : Bool :=
  if b.e ≤ a.e then decide (b.m ≤ a.m * 2 ^ (a.e - b.e).toNat)
  else decide (b.m * 2 ^ (b.e - a.e).toNat ≤ a.m)

/-- The binary64 value of the source literal `0.241`
(`0x1.ed916872b020cp-3`). -/
def fp241 : Fp := ⟨8682940081570316, -55⟩

/-- The binary64 value of the source literal `0.691`
(`0x1.61cac083126e9p-1`). -/
def fp691 : Fp := ⟨6223974685026025, -53⟩

/-- The binary64 value of the source literal `0.068`
(`0x1.16872b020c49cp-4`). -/
def fp068 : Fp := ⟨4899916394579100, -56⟩

/-- JS `Math.ceil(num / den)` for integers, i.e. the exact rational ceiling;
`den = 0` is unreachable in every use below (`Math.ceil` of an infinity). -/
def jsCeilDiv (num den : ℤ) : ℤ := -((-num).fdiv den)

/-- JS `Math.round(num / den)` for integers with `den > 0`: round half
toward positive infinity, `⌊num/den + 1/2⌋`. -/
def jsRoundDiv (num den : ℤ) : ℤ := (2 * num + den).fdiv (2 * den)

/-- JS `ToUint8`, applied by `Uint8Array.from` to every pushed number:
NaN (`none`) becomes 0, integers are taken mod 256. -/
def toUint8 (v : Option ℤ) : Byte :=
  match v with
  | none => (0 : Byte)
  | some n => ⟨(n % 256).toNat, by omega⟩

/-- `color.r`, `color.g`, `color.b` of an input pixel: 8-bit channel values
read from the `ImageData` byte array. -/
structure Color where
  r : ℕ
  g : ℕ
  b : ℕ
deriving DecidableEq, Repr

/-- A computed average color (`getBoxColors` output): each channel is an
integer, or NaN (`none`) when the averaged set was empty (JS `0/0`). -/
structure JsColor where
  r : Option ℕ
  g : Option ℕ
  b : Option ℕ
deriving DecidableEq, Repr

/-- An exact unreduced mean `total / count`, used in comparisons
`v >= total/count`.  For `GradRgb`'s per-channel box averages the
numerator is an exact integer sum (integer sums below `2 ^ 53` are exact
in binary64, and the division/comparison cannot be perturbed by rounding,
since `a/b` is at least `1/b` away from any other fraction with
denominator `b` while its rounding error is below `2 ^ -40`), so there
`Mean.le` is the program's comparison exactly.  For the luminance mean the
numerator is a rounded float sum of irrational luminances, so this exact
model is only the spec's idealization of it ("luminance at least the
mean, ties light"); the faithful binary64 classification is
`lightPixelsFp` below, which can disagree with it on exact ties. -/
structure Mean where
  total : ℕ
  count : ℕ
deriving DecidableEq, Repr

/-- `v >= total/count` as the source compares a value against a mean
(cross-multiplied; exact for `count > 0`). -/
def Mean.le (m : Mean) (v : ℕ) : Bool := m.total ≤ m.count * v

/-- `getLuminance(color) = sqrt(0.241 r² + 0.691 g² + 0.068 b²) / 255`,
represented in exact fixed point: the returned value is `255·10⁶` times the
mathematical value of the source's luminance, truncated to an integer.
This is the spec-side idealization (the spec speaks of "the luminance" and
"the mean luminance" as real numbers); the value the program actually
computes, with each operation rounded to binary64, is `getLuminanceFp`
below. -/
def getLuminance (c : Color) : ℕ :=
  natSqrt ((241 * c.r * c.r + 691 * c.g * c.g + 68 * c.b * c.b) * 10 ^ 9)

/-- Logical `width × height` RGBA pixel grid (canvas `ImageData`): `data i`
is the byte at index `i` of the backing `Uint8ClampedArray`.  All reads the
code performs are in range. -/
structure ImageData where
  width : ℕ
  height : ℕ
  data : ℕ → Byte

/-- A position together with the full color of a pixel. -/
structure FullColorPixel where
  x : ℕ
  y : ℕ
  color : Color
deriving DecidableEq, Repr

/-- A box of image data; `x` and `y` are box-grid coordinates (not pixels),
`size` the edge length in pixels (an `ℤ`, because the unvalidated `boxSize`
compression option reaches it unchanged). -/
structure UncompressedBox where
  x : ℕ
  y : ℕ
  size : ℤ
  data : List FullColorPixel
deriving DecidableEq, Repr

/-- Total width and height covered by whole boxes. -/
structure ImageBoxesSize where
  width : ℤ
  height : ℤ
deriving DecidableEq, Repr

/-- The rounded-down covered size plus the row-major box sequence. -/
structure ImageBoxes (T : Type) where
  size : ImageBoxesSize
  data : List T
deriving DecidableEq, Repr

/-- Row-major traversal `for y in [0,h) { for x in [0,w) { f x y } }`,
the loop shape used throughout the source. -/
def rowMajor (w h : ℕ) (f : ℕ → ℕ → α) : List α :=
  (List.range h).flatMap fun y => (List.range w).map fun x => f x y

/-- `splitIntoBoxes(imageData, boxSize)`: covered size is
`boxSize * floor(dim / boxSize)` per axis (`Int.fdiv` is JS
`Math.floor` of the division); boxes are produced row-major, each box's
pixels row-major relative to the box origin.  For `boxSize < 0` both loop
bounds are negative and no box is produced (`Int.toNat` of the negative
box counts), exactly as in JS; `boxSize = 0` never reaches this function
(the compress guards throw first). -/
def splitIntoBoxes (imageData : ImageData) (boxSize : ℤ) : ImageBoxes UncompressedBox :=
  let size : ImageBoxesSize :=
    { width := boxSize * ((imageData.width : ℤ).fdiv boxSize)
      height := boxSize * ((imageData.height : ℤ).fdiv boxSize) }
  let b : ℕ := boxSize.toNat
  let data : List UncompressedBox :=
    rowMajor ((imageData.width : ℤ).fdiv boxSize).toNat
             ((imageData.height : ℤ).fdiv boxSize).toNat fun x y =>
      { x := x, y := y, size := boxSize
        data := rowMajor b b fun x1 y1 =>
          let realY := y * b + y1
          let realX := x * b + x1
          let index := realY * imageData.width + realX
          { x := x1, y := y1
            color :=
              { r := (imageData.data (index * 4)).val
                g := (imageData.data (index * 4 + 1)).val
                b := (imageData.data (index * 4 + 2)).val } } }
  { size := size, data := data }

/-- Exact sum of the idealized luminances — the spec-side reading of the
`reduce` of `getBoxColors`.  The program's float fold is
`totalLuminanceFp`; its rounding is what makes the two classifications
below diverge. -/
def totalLuminance (data : List FullColorPixel) : ℕ :=
  (data.map fun p => getLuminance p.color).sum

/-- The pixels of `data` with idealized luminance at least the exact mean
`avg` — the spec's "light" set, with exact ties going light.  The set the
program computes is `lightPixelsFp`. -/
def lightPixels (avg : Mean) (data : List FullColorPixel) : List FullColorPixel :=
  data.filter fun p => avg.le (getLuminance p.color)

/-- The complement of `lightPixels` (the spec's "dark" set). -/
def darkPixels (avg : Mean) (data : List FullColorPixel) : List FullColorPixel :=
  data.filter fun p => !avg.le (getLuminance p.color)

/-- `Math.floor(total / n)`, the per-channel average of `getBoxColors`:
NaN (`none`) for JS `0/0` when the partition is empty (its channel totals
are then 0), otherwise exact floored division. -/
def avgChannel (total n : ℕ) : Option ℕ :=
  if n = 0 then none else some (total / n)

/-- Per-channel floored mean color of a pixel set (NaN channels when the
set is empty). -/
def averageColor (l : List FullColorPixel) : JsColor :=
  { r := avgChannel (l.map fun p => p.color.r).sum l.length
    g := avgChannel (l.map fun p => p.color.g).sum l.length
    b := avgChannel (l.map fun p => p.color.b).sum l.length }

/-- Result of `getBoxColors`. -/
structure BoxColors where
  averageLuminance : Mean
  light : JsColor
  dark : JsColor
deriving DecidableEq, Repr

/-- `getBoxColors(box)` under the spec's exact reading of the luminance
comparison: mean luminance of the box, then the floored average colors of
the light (luminance ≥ mean, ties light) and dark pixel sets.  It agrees
with the program wherever no pixel's luminance falls within the float
mean's rounding error (as in every concrete trace below that uses it);
the generally faithful version is the `Fp` pipeline. -/
def getBoxColors (box : UncompressedBox) : BoxColors :=
  let avg : Mean := { total := totalLuminance box.data, count := box.data.length }
  { averageLuminance := avg
    light := averageColor (lightPixels avg box.data)
    dark := averageColor (darkPixels avg box.data) }

/-- `getLuminance(color)` computed exactly as JS computes it:
`Math.sqrt((0.241 * r * r) + (0.691 * g * g) + (0.068 * b * b)) / 255`
with every intermediate operation rounded to binary64 in source order. -/
def getLuminanceFp (c : Color) : Fp :=
  let r := Fp.ofNat c.r
  let g := Fp.ofNat c.g
  let b := Fp.ofNat c.b
  let s := Fp.add (Fp.add (Fp.mul (Fp.mul fp241 r) r) (Fp.mul (Fp.mul fp691 g) g))
    (Fp.mul (Fp.mul fp068 b) b)
  (Fp.div (Fp.sqrt s) (Fp.ofNat 255)).getD ⟨0, 0⟩

/-- The `reduce((p, c) => p + getLuminance(c.color), 0)` of `getBoxColors`:
a left fold of binary64 additions from `0`. -/
def totalLuminanceFp (data : List FullColorPixel) : Fp :=
  data.foldl (fun acc p => Fp.add acc (getLuminanceFp p.color)) ⟨0, 0⟩

/-- `averageLuminance = totalLuminance / data.length` in binary64; `none`
is the NaN of an empty list (`0/0`). -/
def averageLuminanceFp (data : List FullColorPixel) : Option Fp :=
  Fp.div (totalLuminanceFp data) (Fp.ofNat data.length)

/-- The classification `getLuminance(pixel.color) >= averageLuminance`
(false when the mean is NaN, as every JS comparison with NaN is). -/
def fpIsLight (lum : Fp) (avg : Option Fp) : Bool :=
  match avg with
  | none => false
  | some x => Fp.ge lum x

/-- The light partition exactly as the program computes it: pixels whose
binary64 luminance is at least the binary64 mean.  Because the summed mean
is rounded, this can differ from the exact `lightPixels`: for a uniform
box the float mean may exceed the common luminance, making this empty. -/
def lightPixelsFp (data : List FullColorPixel) : List FullColorPixel :=
  data.filter fun p => fpIsLight (getLuminanceFp p.color) (averageLuminanceFp data)

/-- The complementary dark partition under the binary64 comparison. -/
def darkPixelsFp (data : List FullColorPixel) : List FullColorPixel :=
  data.filter fun p => !fpIsLight (getLuminanceFp p.color) (averageLuminanceFp data)

deriving instance DecidableEq for Except
deriving instance Repr for Except

/-- A pixel reduced to its 1-bit index (1 = light, 0 = dark). -/
structure IndexedPixel where
  x : ℕ
  y : ℕ
  index : ℕ
deriving DecidableEq, Repr

/-- A `QImg` compressed box: two representative colors plus the indexed
pixels. -/
structure QCompressedBox where
  x : ℕ
  y : ℕ
  size : ℤ
  light : JsColor
  dark : JsColor
  data : List IndexedPixel
deriving DecidableEq, Repr

namespace QImg

/-- The 8-byte magic of the qimg format. -/
def MAGIC : List Byte := [99, 115, 113, 47, 113, 105, 109, 103]

/-- Body of the `boxes.data.map` of `QImg.#compressBoxes` under the
spec's exact reading of the luminance comparison (index bit 1 exactly when
the idealized luminance is at least the exact mean; the faithful binary64
version is `QImg.compressBoxFp`). -/
def compressBox (box : UncompressedBox) : QCompressedBox :=
  let c := getBoxColors box
  { x := box.x, y := box.y, size := box.size
    light := c.light, dark := c.dark
    data := box.data.map fun p =>
      { x := p.x, y := p.y
        index := if c.averageLuminance.le (getLuminance p.color) then 1 else 0 } }

/-- `QImg.#compressBoxes`. -/
def compressBoxes (boxes : ImageBoxes UncompressedBox) : ImageBoxes QCompressedBox :=
  { size := boxes.size, data := boxes.data.map compressBox }

end QImg

/-- A parsed or compressed qimg image. -/
structure QImgCompressedImage where
  boxes : ImageBoxes QCompressedBox
  boxSize : ℤ
deriving DecidableEq, Repr

/-- `QImg.compress(image, { boxSize })` under the spec's exact reading of
the luminance comparison: the guard `if (!boxSize) throw` rejects exactly
the falsy `boxSize = 0` (and a missing option).  Guard and box-grid
behavior are partition-independent; the faithful binary64 compressor is
`QImg.compressFp`. -/
def QImg.compress (image : ImageData) (boxSize : ℤ) :
    Except JsError QImgCompressedImage :=
  if boxSize = 0 then .error .invalidArgument
  else .ok { boxes := compressBoxes (splitIntoBoxes image boxSize), boxSize := boxSize }

/-- `QImg.#compressBoxes` box body under the program's binary64 luminance
comparison: average colors of the two float partitions, and index bit 1
exactly when `getLuminance(pixel.color) >= averageLuminance` holds in
binary64. -/
def QImg.compressBoxFp (box : UncompressedBox) : QCompressedBox :=
  { x := box.x, y := box.y, size := box.size
    light := averageColor (lightPixelsFp box.data)
    dark := averageColor (darkPixelsFp box.data)
    data := box.data.map fun p =>
      { x := p.x, y := p.y
        index := if fpIsLight (getLuminanceFp p.color) (averageLuminanceFp box.data)
          then 1 else 0 } }

/-- `QImg.#compressBoxes` under the binary64 comparison. -/
def QImg.compressBoxesFp (boxes : ImageBoxes UncompressedBox) : ImageBoxes QCompressedBox :=
  { size := boxes.size, data := boxes.data.map compressBoxFp }

/-- `QImg.compress` under the binary64 comparison (the faithful model of
the program; it differs from `QImg.compress` only in which pixels each
partition holds when a luminance ties with the exact mean). -/
def QImg.compressFp (image : ImageData) (boxSize : ℤ) :
    Except JsError QImgCompressedImage :=
  if boxSize = 0 then .error .invalidArgument
  else .ok { boxes := compressBoxesFp (splitIntoBoxes image boxSize), boxSize := boxSize }

/-- The 24-bit big-endian encoding of the record count,
`[(n & 0xFF0000) >> 16, (n & 0xFF00) >> 8, n & 0xFF]`. -/
def lengthBytes24 (n : ℕ) : List (Option ℤ) :=
  [some (n / 2 ^ 16 % 2 ^ 8 : ℕ), some (n / 2 ^ 8 % 2 ^ 8 : ℕ), some (n % 2 ^ 8 : ℕ)]

/-- The bytes one `QImg` box contributes to the output buffer: x, y, light
rgb, dark rgb, then one byte per pixel index. -/
def qRecordBytes (box : QCompressedBox) : List (Option ℤ) :=
  [some (box.x : ℤ), some (box.y : ℤ),
   box.light.r.map Int.ofNat, box.light.g.map Int.ofNat, box.light.b.map Int.ofNat,
   box.dark.r.map Int.ofNat, box.dark.g.map Int.ofNat, box.dark.b.map Int.ofNat]
  ++ box.data.map fun p => some (p.index : ℤ)

/-- `QImgCompressedImage.toBuffer()`.  The width/height checks are on the
exact quotient `size / boxSize` the source computes (an exact JS division
in every image the code constructs, since the covered size is a multiple of
the box size); `Uint8Array.from` applies `toUint8` to every pushed number.
The serialized version is 0.1. -/
def QImgCompressedImage.toBuffer (img : QImgCompressedImage) :
    Except JsError (List Byte) :=
  let boxesWidth : ℤ := img.boxes.size.width.fdiv img.boxSize
  let boxesHeight : ℤ := img.boxes.size.height.fdiv img.boxSize
  let n := img.boxes.data.length
  if 255 < img.boxSize then .error .encodingLimitExceeded
  else if 255 < boxesWidth then .error .encodingLimitExceeded
  else if 255 < boxesHeight then .error .encodingLimitExceeded
  else if 2 ^ 24 ≤ n then .error .encodingLimitExceeded
  else .ok ((
    (QImg.MAGIC.map fun b => some (b.val : ℤ))
    ++ [some 0, some 1, some img.boxSize, some boxesWidth, some boxesHeight]
    ++ lengthBytes24 n
    ++ (img.boxes.data.map qRecordBytes).flatten).map toUint8)

/-- Read byte `i` of a buffer as a number; out-of-range reads are JS
`undefined`, modelled as 0 (see the header comment). -/
def byteAt (l : List Byte) (i : ℕ) : ℕ := (l.getD i 0).val

/-- The magic check of every `fromBuffer`:
`data.slice(0, 8).every((v, i) => v == MAGIC[i])` — an element-wise
comparison over the at most 8 bytes actually present. -/
def magicOk (magic data : List Byte) : Bool :=
  (List.zipWith (fun a b : Byte => a == b) (data.take 8) magic).all id

/-- `QImg.fromBuffer(data)`: reject on magic mismatch, then decode the
fixed 16-byte header (the version pair is read but never inspected) and
`dataLength` boxes of `2 + 3 + 3 + boxSize²` bytes each.  The 24-bit length
`(d0 << 16) | (d1 << 8) | d2` is the exact sum below because the three
operands occupy disjoint bit ranges of bytes. -/
def QImg.fromBuffer (data : List Byte) : Except JsError QImgCompressedImage :=
  let header := data.take 16
  let rest := data.drop 16
  if !magicOk MAGIC header then .error .formatError
  else
    let headerData := header.drop 8
    let boxSize := byteAt headerData 2
    let width := byteAt headerData 3
    let height := byteAt headerData 4
    let dataLength :=
      byteAt headerData 5 * 2 ^ 16 + byteAt headerData 6 * 2 ^ 8 + byteAt headerData 7
    let boxBytesSize := 2 + 3 + 3 + boxSize ^ 2
    let boxes : List QCompressedBox :=
      (List.range dataLength).map fun i =>
        let boxBytes := (rest.drop (i * boxBytesSize)).take boxBytesSize
        let boxHeader := boxBytes.take 8
        let pixels := boxBytes.drop 8
        { x := byteAt boxHeader 0, y := byteAt boxHeader 1
          light := { r := some (byteAt boxHeader 2), g := some (byteAt boxHeader 3)
                     b := some (byteAt boxHeader 4) }
          dark := { r := some (byteAt boxHeader 5), g := some (byteAt boxHeader 6)
                    b := some (byteAt boxHeader 7) }
          size := (boxSize : ℤ)
          data := rowMajor boxSize boxSize fun x y =>
            { x := x, y := y, index := byteAt pixels (y * boxSize + x) } }
    .ok { boxes :=
            { size := { width := (width * boxSize : ℕ), height := (height * boxSize : ℕ) }
              data := boxes }
          boxSize := (boxSize : ℤ) }

/-- An integer gradient-stop position; `(0, 0)` is the absent sentinel. -/
structure GradPos where
  x : ℤ
  y : ℤ
deriving DecidableEq, Repr

/-- The pair of gradient stops of a `GradImg` box. -/
structure GradCenters where
  light : GradPos
  dark : GradPos
deriving DecidableEq, Repr

/-- A `GradImg` compressed box. -/
structure GradCompressedBox where
  x : ℕ
  y : ℕ
  size : ℤ
  light : JsColor
  dark : JsColor
  centers : GradCenters
deriving DecidableEq, Repr

/-- An exact integer fraction `num / den` modelling a JS float; `den` is
positive in every value the code constructs (comparisons below assume it).
Used for the gradient scale, whose reachable values are all of the form
`k / 255` or `1 / 2`. -/
structure JsRat where
  num : ℤ
  den : ℕ
deriving DecidableEq, Repr

/-- The shared validation and quantization both gradient codec
constructors perform on their `gradientScale` argument (the bodies of
`new GradImgCompressedImage` and `new GradRgbCompressedImage` are
identical, with `GRADIENT_SCALE_MAX = 1`): throw unless
`0 < gradientScale ≤ 1`, then quantize to
`round(gradientScale · 255) / 255`. -/
def checkGradientScale (gs : JsRat) : Except JsError JsRat :=
  if gs.num ≤ 0 ∨ (gs.den : ℤ) < gs.num then .error .invalidArgument
  else .ok { num := jsRoundDiv (255 * gs.num) gs.den, den := 255 }

namespace GradImg

/-- The 8-byte magic of the gradimg format. -/
def MAGIC : List Byte := [99, 115, 113, 47, 103, 114, 97, 100]

/-- `GradImg.#average(list, boxSize)`: the `(0,0)` sentinel for an empty
list, else the mean relative position rescaled to `[0,255]` per axis by
`Math.ceil((total / length / boxSize) * 255)`, with a 0 result clamped up
to 1. -/
def average (list : List FullColorPixel) (boxSize : ℤ) : GradPos :=
  if list.length = 0 then { x := 0, y := 0 }
  else
    let x := jsCeilDiv (((list.map fun p => p.x).sum : ℤ) * 255) (list.length * boxSize)
    let y := jsCeilDiv (((list.map fun p => p.y).sum : ℤ) * 255) (list.length * boxSize)
    { x := if x = 0 then 1 else x, y := if y = 0 then 1 else y }

/-- `GradImg.#getCenters(box, averageLuminance)`: mean position of the
light pixels (luminance ≥ mean) and of the dark pixels. -/
def getCenters (box : UncompressedBox) (averageLuminance : Mean) : GradCenters :=
  { light := average (lightPixels averageLuminance box.data) box.size
    dark := average (darkPixels averageLuminance box.data) box.size }

/-- The per-box body of `GradImg.compress` under the spec's exact reading
of the luminance comparison: colors and centers, with the dark center
forced to the `(0,0)` absent sentinel when the two centers coincide.  The
faithful binary64 version is `GradImg.compressBoxFp`. -/
def compressBox (box : UncompressedBox) : GradCompressedBox :=
  let c := getBoxColors box
  let centers := getCenters box c.averageLuminance
  let centers' :=
    if centers.dark.x = centers.light.x ∧ centers.dark.y = centers.light.y then
      { light := centers.light, dark := { x := 0, y := 0 } }
    else centers
  { x := box.x, y := box.y, size := box.size
    light := c.light, dark := c.dark, centers := centers' }

end GradImg

/-- A parsed or compressed gradimg image; `gradientScale` is the quantized
scale stored by the constructor. -/
structure GradImgCompressedImage where
  boxes : ImageBoxes GradCompressedBox
  boxSize : ℤ
  gradientScale : JsRat
deriving DecidableEq, Repr

/-- `new GradImgCompressedImage(boxes, boxSize, gradientScale)`: validate
and quantize the scale (throwing `InvalidArgument` for a scale outside
`(0, 1]`), then store. -/
def GradImgCompressedImage.make (boxes : ImageBoxes GradCompressedBox) (boxSize : ℤ)
    (gradientScale : JsRat) : Except JsError GradImgCompressedImage :=
  (checkGradientScale gradientScale).map fun q =>
    { boxes := boxes, boxSize := boxSize, gradientScale := q }

/-- `GradImg.compress(image, { boxSize, gradientScale })` under the
spec's exact reading of the luminance comparison (used below only on
inputs where no luminance falls within the float mean's rounding error,
where it agrees with the program; the faithful binary64 compressor is
`GradImg.compressFp`). -/
def GradImg.compress (image : ImageData) (boxSize : ℤ) (gradientScale : JsRat) :
    Except JsError GradImgCompressedImage :=
  if boxSize = 0 then .error .invalidArgument
  else
    let uncompressedBoxes := splitIntoBoxes image boxSize
    GradImgCompressedImage.make
      { size := uncompressedBoxes.size
        data := uncompressedBoxes.data.map GradImg.compressBox }
      boxSize gradientScale

/-- `GradImg.#getCenters` under the program's binary64 luminance
comparison: mean positions of the two float partitions (the position
arithmetic itself, `GradImg.average`, cannot be perturbed by float
rounding and stays exact). -/
def GradImg.getCentersFp (box : UncompressedBox) : GradCenters :=
  { light := average (lightPixelsFp box.data) box.size
    dark := average (darkPixelsFp box.data) box.size }

/-- The per-box body of `GradImg.compress` under the binary64
comparison. -/
def GradImg.compressBoxFp (box : UncompressedBox) : GradCompressedBox :=
  let centers := getCentersFp box
  let centers' :=
    if centers.dark.x = centers.light.x ∧ centers.dark.y = centers.light.y then
      { light := centers.light, dark := { x := 0, y := 0 } }
    else centers
  { x := box.x, y := box.y, size := box.size
    light := averageColor (lightPixelsFp box.data)
    dark := averageColor (darkPixelsFp box.data)
    centers := centers' }

/-- `GradImg.compress` under the binary64 comparison (the faithful model
of the program). -/
def GradImg.compressFp (image : ImageData) (boxSize : ℤ) (gradientScale : JsRat) :
    Except JsError GradImgCompressedImage :=
  if boxSize = 0 then .error .invalidArgument
  else
    let uncompressedBoxes := splitIntoBoxes image boxSize
    GradImgCompressedImage.make
      { size := uncompressedBoxes.size
        data := uncompressedBoxes.data.map GradImg.compressBoxFp }
      boxSize gradientScale

/-- The bytes one `GradImg` box contributes: x, y, light rgb, dark rgb,
light stop x y, dark stop x y. -/
def gradRecordBytes (box : GradCompressedBox) : List (Option ℤ) :=
  [some (box.x : ℤ), some (box.y : ℤ),
   box.light.r.map Int.ofNat, box.light.g.map Int.ofNat, box.light.b.map Int.ofNat,
   box.dark.r.map Int.ofNat, box.dark.g.map Int.ofNat, box.dark.b.map Int.ofNat,
   some box.centers.light.x, some box.centers.light.y,
   some box.centers.dark.x, some box.centers.dark.y]

/-- `GradImgCompressedImage.toBuffer()`: the version-0.2 layout with the
gradient-scale byte `max(1, round(gradientScale · 255))` between the
version pair and `boxSize`. -/
def GradImgCompressedImage.toBuffer (img : GradImgCompressedImage) :
    Except JsError (List Byte) :=
  let boxesWidth : ℤ := img.boxes.size.width.fdiv img.boxSize
  let boxesHeight : ℤ := img.boxes.size.height.fdiv img.boxSize
  let n := img.boxes.data.length
  if 255 < img.boxSize then .error .encodingLimitExceeded
  else if 255 < boxesWidth then .error .encodingLimitExceeded
  else if 255 < boxesHeight then .error .encodingLimitExceeded
  else if 2 ^ 24 ≤ n then .error .encodingLimitExceeded
  else
    let gradientScaleByte : ℤ :=
      max 1 (jsRoundDiv (255 * img.gradientScale.num) img.gradientScale.den)
    .ok ((
      (GradImg.MAGIC.map fun b => some (b.val : ℤ))
      ++ [some 0, some 2, some gradientScaleByte,
          some img.boxSize, some boxesWidth, some boxesHeight]
      ++ lengthBytes24 n
      ++ (img.boxes.data.map gradRecordBytes).flatten).map toUint8)

/-- `GradImg.fromBuffer(data)`: magic check, then the version pair; every
version other than 0.1 is assumed to carry the gradient-scale byte
(`hasGradientScaling = version != '0.1'`, and the byte pair `(0, 1)` is the
only one rendering as the string `0.1`).  The subsequent reads model the
source's successive `shift()` calls by their positions in `data.drop 8`;
the decoded scale is passed to the constructor, which revalidates it. -/
def GradImg.fromBuffer (data : List Byte) : Except JsError GradImgCompressedImage :=
  if !magicOk MAGIC data then .error .formatError
  else
    let rest := data.drop 8
    let hasGradientScaling : Bool := !(byteAt rest 0 == 0 && byteAt rest 1 == 1)
    let gradientScale : JsRat :=
      if hasGradientScaling then { num := (byteAt rest 2 : ℤ), den := 255 }
      else { num := 1, den := 2 }
    let off := if hasGradientScaling then 3 else 2
    let boxSize := byteAt rest off
    let width := byteAt rest (off + 1)
    let height := byteAt rest (off + 2)
    let dataLength :=
      byteAt rest (off + 3) * 2 ^ 16 + byteAt rest (off + 4) * 2 ^ 8 + byteAt rest (off + 5)
    let body := rest.drop (off + 6)
    let boxBytesSize := 2 + 3 + 3 + 2 + 2
    let boxes : List GradCompressedBox :=
      (List.range dataLength).map fun i =>
        let boxBytes := (body.drop (i * boxBytesSize)).take boxBytesSize
        { x := byteAt boxBytes 0, y := byteAt boxBytes 1
          light := { r := some (byteAt boxBytes 2), g := some (byteAt boxBytes 3)
                     b := some (byteAt boxBytes 4) }
          dark := { r := some (byteAt boxBytes 5), g := some (byteAt boxBytes 6)
                    b := some (byteAt boxBytes 7) }
          size := (boxSize : ℤ)
          centers :=
            { light := { x := (byteAt boxBytes 8 : ℤ), y := (byteAt boxBytes 9 : ℤ) }
              dark := { x := (byteAt boxBytes 10 : ℤ), y := (byteAt boxBytes 11 : ℤ) } } }
    GradImgCompressedImage.make
      { size := { width := (width * boxSize : ℕ), height := (height * boxSize : ℕ) }
        data := boxes }
      (boxSize : ℤ) gradientScale

/-- A pixel reduced to one channel. -/
structure SingleChannelPixel where
  x : ℕ
  y : ℕ
  value : ℕ
deriving DecidableEq, Repr

/-- One gradient stop of one channel: quantized position and channel
value; `(0, 0, 0)` is the absent sentinel for an empty set. -/
structure SingleChannelStop where
  x : ℤ
  y : ℤ
  value : ℤ
deriving DecidableEq, Repr

/-- The light and dark stops of one channel. -/
structure SingleChannelStops where
  light : SingleChannelStop
  dark : SingleChannelStop
deriving DecidableEq, Repr

/-- The three per-channel stop pairs of a `GradRgb` box
(`centers: { [key in Channel]: SingleChannelStops }`). -/
structure RgbStops where
  r : SingleChannelStops
  g : SingleChannelStops
  b : SingleChannelStops
deriving DecidableEq, Repr

/-- A `GradRgb` compressed box. -/
structure GradRgbCompressedBox where
  x : ℕ
  y : ℕ
  size : ℤ
  centers : RgbStops
deriving DecidableEq, Repr

/-- The per-channel box averages of `getAverageRGBOfBox` (each an exact
unreduced mean, see `Mean`). -/
structure RgbMeans where
  r : Mean
  g : Mean
  b : Mean
deriving DecidableEq, Repr

/-- `getAverageRGBOfBox(box)`: the mean value of each channel over the
box's pixels. -/
def getAverageRGBOfBox (box : UncompressedBox) : RgbMeans :=
  { r := { total := (box.data.map fun p => p.color.r).sum, count := box.data.length }
    g := { total := (box.data.map fun p => p.color.g).sum, count := box.data.length }
    b := { total := (box.data.map fun p => p.color.b).sum, count := box.data.length } }

namespace GradRgb

/-- The 8-byte magic of the gradrgb format. -/
def MAGIC : List Byte := [99, 115, 113, 47, 103, 114, 103, 98]

/-- `GradRgb.#average(list, boxSize)`: the `(0,0,0)` sentinel for an empty
list, else mean position rescaled per axis exactly as in
`GradImg.#average` (ceil, clamped up from 0 to 1) together with the
rounded mean channel value. -/
def average (list : List SingleChannelPixel) (boxSize : ℤ) : SingleChannelStop :=
  if list.length = 0 then { x := 0, y := 0, value := 0 }
  else
    let x := jsCeilDiv (((list.map fun p => p.x).sum : ℤ) * 255) (list.length * boxSize)
    let y := jsCeilDiv (((list.map fun p => p.y).sum : ℤ) * 255) (list.length * boxSize)
    let value := jsRoundDiv ((list.map fun p => p.value).sum : ℤ) list.length
    { x := if x = 0 then 1 else x, y := if y = 0 then 1 else y, value := value }

/-- The pixels of `data` whose channel value (under `ch`) is at least the
mean `avg`, reduced to that channel — the per-channel light set of
`GradRgb.#getCenters`. -/
def channelLight (avg : Mean) (ch : Color → ℕ) (data : List FullColorPixel) :
    List SingleChannelPixel :=
  (data.filter fun p => avg.le (ch p.color)).map fun p =>
    { x := p.x, y := p.y, value := ch p.color }

/-- The complementary per-channel dark set. -/
def channelDark (avg : Mean) (ch : Color → ℕ) (data : List FullColorPixel) :
    List SingleChannelPixel :=
  (data.filter fun p => !avg.le (ch p.color)).map fun p =>
    { x := p.x, y := p.y, value := ch p.color }

/-- `GradRgb.#getCenters(box)`: per channel, partition by comparison with
that channel's box average and average each side. -/
def getCenters (box : UncompressedBox) : RgbStops :=
  let averages := getAverageRGBOfBox box
  { r := { light := average (channelLight averages.r (fun c => c.r) box.data) box.size
           dark := average (channelDark averages.r (fun c => c.r) box.data) box.size }
    g := { light := average (channelLight averages.g (fun c => c.g) box.data) box.size
           dark := average (channelDark averages.g (fun c => c.g) box.data) box.size }
    b := { light := average (channelLight averages.b (fun c => c.b) box.data) box.size
           dark := average (channelDark averages.b (fun c => c.b) box.data) box.size } }

/-- The per-box body of `GradRgb.compress`: position, size and the raw
`#getCenters` result (no coincidence collapse is applied). -/
def compressBox (box : UncompressedBox) : GradRgbCompressedBox :=
  { x := box.x, y := box.y, size := box.size, centers := getCenters box }

end GradRgb

/-- A parsed or compressed gradrgb image. -/
structure GradRgbCompressedImage where
  boxes : ImageBoxes GradRgbCompressedBox
  boxSize : ℤ
  gradientScale : JsRat
deriving DecidableEq, Repr

/-- `new GradRgbCompressedImage(boxes, boxSize, gradientScale)`: identical
validation and quantization to the `GradImg` constructor. -/
def GradRgbCompressedImage.make (boxes : ImageBoxes GradRgbCompressedBox) (boxSize : ℤ)
    (gradientScale : JsRat) : Except JsError GradRgbCompressedImage :=
  (checkGradientScale gradientScale).map fun q =>
    { boxes := boxes, boxSize := boxSize, gradientScale := q }

/-- `GradRgb.compress(image, { boxSize, gradientScale })`. -/
def GradRgb.compress (image : ImageData) (boxSize : ℤ) (gradientScale : JsRat) :
    Except JsError GradRgbCompressedImage :=
  if boxSize = 0 then .error .invalidArgument
  else
    let uncompressedBoxes := splitIntoBoxes image boxSize
    GradRgbCompressedImage.make
      { size := uncompressedBoxes.size
        data := uncompressedBoxes.data.map GradRgb.compressBox }
      boxSize gradientScale

/-- The bytes one `GradRgb` box contributes: x, y, then for each channel
the light stop (x, y, value) followed by the dark stop (x, y, value). -/
def gradRgbRecordBytes (box : GradRgbCompressedBox) : List (Option ℤ) :=
  [some (box.x : ℤ), some (box.y : ℤ),
   some box.centers.r.light.x, some box.centers.r.light.y, some box.centers.r.light.value,
   some box.centers.r.dark.x, some box.centers.r.dark.y, some box.centers.r.dark.value,
   some box.centers.g.light.x, some box.centers.g.light.y, some box.centers.g.light.value,
   some box.centers.g.dark.x, some box.centers.g.dark.y, some box.centers.g.dark.value,
   some box.centers.b.light.x, some box.centers.b.light.y, some box.centers.b.light.value,
   some box.centers.b.dark.x, some box.centers.b.dark.y, some box.centers.b.dark.value]

/-- `GradRgbCompressedImage.toBuffer()`: same version-0.2 header shape as
`GradImg`, 20-byte records. -/
def GradRgbCompressedImage.toBuffer (img : GradRgbCompressedImage) :
    Except JsError (List Byte) :=
  let boxesWidth : ℤ := img.boxes.size.width.fdiv img.boxSize
  let boxesHeight : ℤ := img.boxes.size.height.fdiv img.boxSize
  let n := img.boxes.data.length
  if 255 < img.boxSize then .error .encodingLimitExceeded
  else if 255 < boxesWidth then .error .encodingLimitExceeded
  else if 255 < boxesHeight then .error .encodingLimitExceeded
  else if 2 ^ 24 ≤ n then .error .encodingLimitExceeded
  else
    let gradientScaleByte : ℤ :=
      max 1 (jsRoundDiv (255 * img.gradientScale.num) img.gradientScale.den)
    .ok ((
      (GradRgb.MAGIC.map fun b => some (b.val : ℤ))
      ++ [some 0, some 2, some gradientScaleByte,
          some img.boxSize, some boxesWidth, some boxesHeight]
      ++ lengthBytes24 n
      ++ (img.boxes.data.map gradRgbRecordBytes).flatten).map toUint8)

/-- `GradRgb.fromBuffer(data)`: same header handling as
`GradImg.fromBuffer`, 20-byte records. -/
def GradRgb.fromBuffer (data : List Byte) : Except JsError GradRgbCompressedImage :=
  if !magicOk MAGIC data then .error .formatError
  else
    let rest := data.drop 8
    let hasGradientScaling : Bool := !(byteAt rest 0 == 0 && byteAt rest 1 == 1)
    let gradientScale : JsRat :=
      if hasGradientScaling then { num := (byteAt rest 2 : ℤ), den := 255 }
      else { num := 1, den := 2 }
    let off := if hasGradientScaling then 3 else 2
    let boxSize := byteAt rest off
    let width := byteAt rest (off + 1)
    let height := byteAt rest (off + 2)
    let dataLength :=
      byteAt rest (off + 3) * 2 ^ 16 + byteAt rest (off + 4) * 2 ^ 8 + byteAt rest (off + 5)
    let body := rest.drop (off + 6)
    let boxBytesSize := 2 + (3 + 3) + (3 + 3) + (3 + 3)
    let boxes : List GradRgbCompressedBox :=
      (List.range dataLength).map fun i =>
        let boxBytes := (body.drop (i * boxBytesSize)).take boxBytesSize
        { x := byteAt boxBytes 0, y := byteAt boxBytes 1
          size := (boxSize : ℤ)
          centers :=
            { r := { light := { x := (byteAt boxBytes 2 : ℤ), y := (byteAt boxBytes 3 : ℤ)
                                value := (byteAt boxBytes 4 : ℤ) }
                     dark := { x := (byteAt boxBytes 5 : ℤ), y := (byteAt boxBytes 6 : ℤ)
                               value := (byteAt boxBytes 7 : ℤ) } }
              g := { light := { x := (byteAt boxBytes 8 : ℤ), y := (byteAt boxBytes 9 : ℤ)
                                value := (byteAt boxBytes 10 : ℤ) }
                     dark := { x := (byteAt boxBytes 11 : ℤ), y := (byteAt boxBytes 12 : ℤ)
                               value := (byteAt boxBytes 13 : ℤ) } }
              b := { light := { x := (byteAt boxBytes 14 : ℤ), y := (byteAt boxBytes 15 : ℤ)
                                value := (byteAt boxBytes 16 : ℤ) }
                     dark := { x := (byteAt boxBytes 17 : ℤ), y := (byteAt boxBytes 18 : ℤ)
                               value := (byteAt boxBytes 19 : ℤ) } } } }
    GradRgbCompressedImage.make
      { size := { width := (width * boxSize : ℕ), height := (height * boxSize : ℕ) }
        data := boxes }
      (boxSize : ℤ) gradientScale

/-- The single box `splitIntoBoxes imgBlue27 3` produces. -/
def box27 : UncompressedBox :=
  { x := 0, y := 0, size := 3
    data := rowMajor 3 3 fun x y =>
      { x := x, y := y, color := { r := 0, g := 0, b := 27 } } }

/-- A two-pixel box (one white, one black pixel): both of its partitions
are non-empty under the binary64 comparison, making it a witness box for
the partition-validity statements. -/
def wbBox : UncompressedBox :=
  { x := 0, y := 0, size := 2
    data := [{ x := 0, y := 0, color := { r := 255, g := 255, b := 255 } },
             { x := 1, y := 0, color := { r := 0, g := 0, b := 0 } }] }

/-- The 2×2 test image of the specification: top row two white pixels,
bottom row two black pixels (RGBA bytes, row-major). -/
def imgWhiteBlack : ImageData :=
  { width := 2, height := 2
    data := fun i =>
      ([255, 255, 255, 255, 255, 255, 255, 255,
        0, 0, 0, 255, 0, 0, 0, 255] : List Byte).getD i 0 }

/-- The body of `GradImg.fromBuffer` after the magic check (`tail` is the
buffer with its 8 magic bytes removed); see `gradImg_fromBuffer_magic`. -/
def gradImgParse (tail : List Byte) : Except JsError GradImgCompressedImage :=
  let hasGradientScaling : Bool := !(byteAt tail 0 == 0 && byteAt tail 1 == 1)
  let gradientScale : JsRat :=
    if hasGradientScaling then { num := (byteAt tail 2 : ℤ), den := 255 }
    else { num := 1, den := 2 }
  let off := if hasGradientScaling then 3 else 2
  let boxSize := byteAt tail off
  let width := byteAt tail (off + 1)
  let height := byteAt tail (off + 2)
  let dataLength :=
    byteAt tail (off + 3) * 2 ^ 16 + byteAt tail (off + 4) * 2 ^ 8 + byteAt tail (off + 5)
  let body := tail.drop (off + 6)
  let boxBytesSize := 2 + 3 + 3 + 2 + 2
  let boxes : List GradCompressedBox :=
    (List.range dataLength).map fun i =>
      let boxBytes := (body.drop (i * boxBytesSize)).take boxBytesSize
      { x := byteAt boxBytes 0, y := byteAt boxBytes 1
        light := { r := some (byteAt boxBytes 2), g := some (byteAt boxBytes 3)
                   b := some (byteAt boxBytes 4) }
        dark := { r := some (byteAt boxBytes 5), g := some (byteAt boxBytes 6)
                  b := some (byteAt boxBytes 7) }
        size := (boxSize : ℤ)
        centers :=
          { light := { x := (byteAt boxBytes 8 : ℤ), y := (byteAt boxBytes 9 : ℤ) }
            dark := { x := (byteAt boxBytes 10 : ℤ), y := (byteAt boxBytes 11 : ℤ) } } }
  GradImgCompressedImage.make
    { size := { width := (width * boxSize : ℕ), height := (height * boxSize : ℕ) }
      data := boxes }
    (boxSize : ℤ) gradientScale

/-- The body of `GradRgb.fromBuffer` after the magic check; see
`gradRgb_fromBuffer_magic`. -/
def gradRgbParse (tail : List Byte) : Except JsError GradRgbCompressedImage :=
  let hasGradientScaling : Bool := !(byteAt tail 0 == 0 && byteAt tail 1 == 1)
  let gradientScale : JsRat :=
    if hasGradientScaling then { num := (byteAt tail 2 : ℤ), den := 255 }
    else { num := 1, den := 2 }
  let off := if hasGradientScaling then 3 else 2
  let boxSize := byteAt tail off
  let width := byteAt tail (off + 1)
  let height := byteAt tail (off + 2)
  let dataLength :=
    byteAt tail (off + 3) * 2 ^ 16 + byteAt tail (off + 4) * 2 ^ 8 + byteAt tail (off + 5)
  let body := tail.drop (off + 6)
  let boxBytesSize := 2 + (3 + 3) + (3 + 3) + (3 + 3)
  let boxes : List GradRgbCompressedBox :=
    (List.range dataLength).map fun i =>
      let boxBytes := (body.drop (i * boxBytesSize)).take boxBytesSize
      { x := byteAt boxBytes 0, y := byteAt boxBytes 1
        size := (boxSize : ℤ)
        centers :=
          { r := { light := { x := (byteAt boxBytes 2 : ℤ), y := (byteAt boxBytes 3 : ℤ)
                              value := (byteAt boxBytes 4 : ℤ) }
                   dark := { x := (byteAt boxBytes 5 : ℤ), y := (byteAt boxBytes 6 : ℤ)
                             value := (byteAt boxBytes 7 : ℤ) } }
            g := { light := { x := (byteAt boxBytes 8 : ℤ), y := (byteAt boxBytes 9 : ℤ)
                              value := (byteAt boxBytes 10 : ℤ) }
                   dark := { x := (byteAt boxBytes 11 : ℤ), y := (byteAt boxBytes 12 : ℤ)
                             value := (byteAt boxBytes 13 : ℤ) } }
            b := { light := { x := (byteAt boxBytes 14 : ℤ), y := (byteAt boxBytes 15 : ℤ)
                              value := (byteAt boxBytes 16 : ℤ) }
                   dark := { x := (byteAt boxBytes 17 : ℤ), y := (byteAt boxBytes 18 : ℤ)
                             value := (byteAt boxBytes 19 : ℤ) } } } }
  GradRgbCompressedImage.make
    { size := { width := (width * boxSize : ℕ), height := (height * boxSize : ℕ) }
      data := boxes }
    (boxSize : ℤ) gradientScale

/-- A well-formed qimg buffer except that its version pair is (9, 9), a
version never emitted: one 1×1 box, boxSize 1. -/
def bufVersion99 : List Byte :=
  [99, 115, 113, 47, 113, 105, 109, 103, 9, 9, 1, 1, 1, 0, 0, 1,
   0, 0, 5, 5, 5, 7, 7, 7, 1]

theorem mem_rowMajor {w h : ℕ} {f : ℕ → ℕ → α} {a : α} :
    a ∈ rowMajor w h f ↔ ∃ x, x < w ∧ ∃ y, y < h ∧ a = f x y := by
  simp only [rowMajor, List.mem_flatMap, List.mem_map, List.mem_range]
  constructor
  · rintro ⟨y, hy, x, hx, rfl⟩
    exact ⟨x, hx, y, hy, rfl⟩
  · rintro ⟨x, hx, y, hy, rfl⟩
    exact ⟨y, hy, x, hx, rfl⟩

theorem rowMajor_map (w h : ℕ) (f : ℕ → ℕ → α) (g : α → β) :
    (rowMajor w h f).map g = rowMajor w h fun x y => g (f x y) := by
  simp [rowMajor, List.map_flatMap, List.map_map, Function.comp_def]

theorem toUint8_val {n : ℤ} (h0 : 0 ≤ n) (h1 : n < 256) :
    (toUint8 (some n)).val = n.toNat := by
  unfold toUint8
  simp only
  omega

theorem toUint8_byte (b : Byte) : toUint8 (some (b.val : ℤ)) = b := by
  apply Fin.ext
  rw [toUint8_val (by omega) (by exact_mod_cast b.isLt)]
  omega

theorem byteAt_cons_zero (a : Byte) (l : List Byte) : byteAt (a :: l) 0 = a.val := rfl

theorem byteAt_cons_succ (a : Byte) (l : List Byte) (i : ℕ) :
    byteAt (a :: l) (i + 1) = byteAt l i := rfl

/-- Integer division of a natural cast, as the source's
`Math.floor(width / boxSize)` with a positive integer `boxSize`. -/
theorem fdiv_natCast (W b : ℕ) (hb : 0 < b) :
    ((W : ℤ).fdiv (b : ℤ)) = ((W / b : ℕ) : ℤ) := by
  rw [Int.fdiv_eq_ediv _ (by omega)]
  exact (Int.natCast_div W b).symm

/-- Normal form of `splitIntoBoxes` for a positive natural box size. -/
theorem splitIntoBoxes_pos (img : ImageData) (b : ℕ) (hb : 0 < b) :
    splitIntoBoxes img (b : ℤ) =
      { size := { width := ((b * (img.width / b) : ℕ) : ℤ)
                  height := ((b * (img.height / b) : ℕ) : ℤ) }
        data := rowMajor (img.width / b) (img.height / b) fun x y =>
          { x := x, y := y, size := (b : ℤ)
            data := rowMajor b b fun x1 y1 =>
              { x := x1, y := y1
                color :=
                  { r := (img.data (((y * b + y1) * img.width + (x * b + x1)) * 4)).val
                    g := (img.data (((y * b + y1) * img.width + (x * b + x1)) * 4 + 1)).val
                    b := (img.data (((y * b + y1) * img.width + (x * b + x1)) * 4 + 2)).val } } } } := by
  unfold splitIntoBoxes
  simp only [fdiv_natCast _ _ hb, Int.toNat_natCast, Int.natCast_mul]

/-! ### Claim theorems -/

/-- C2: for every image of size `(W, H)` and every positive `boxSize b`,
the box partition covers exactly `(b·⌊W/b⌋, b·⌊H/b⌋)` pixels and no pixel
outside that region appears in any box (every pixel's absolute coordinate
is below the covered size); boxes are produced in row-major grid order
(y outer, x inner), and each box's pixel list is in row-major order of
positions relative to the box's own origin. -/
theorem C2_box_partition (img : ImageData) (b : ℕ) (hb : 0 < b) :
    (splitIntoBoxes img (b : ℤ)).size =
      { width := ((b * (img.width / b) : ℕ) : ℤ)
        height := ((b * (img.height / b) : ℕ) : ℤ) } ∧
    (∀ box ∈ (splitIntoBoxes img (b : ℤ)).data, ∀ p ∈ box.data,
      box.x * b + p.x < b * (img.width / b) ∧ box.y * b + p.y < b * (img.height / b)) ∧
    ((splitIntoBoxes img (b : ℤ)).data.map fun box => (box.x, box.y)) =
      rowMajor (img.width / b) (img.height / b) (fun x y => (x, y)) ∧
    (∀ box ∈ (splitIntoBoxes img (b : ℤ)).data,
      (box.data.map fun p => (p.x, p.y)) = rowMajor b b fun x y => (x, y)) := by
  rw [splitIntoBoxes_pos img b hb]
  refine ⟨rfl, ?_, ?_, ?_⟩
  · intro box hbox p hp
    obtain ⟨x, hx, y, hy, rfl⟩ := mem_rowMajor.mp hbox
    obtain ⟨x1, hx1, y1, hy1, rfl⟩ := mem_rowMajor.mp hp
    constructor
    · calc x * b + x1 < x * b + b := by omega
      _ = (x + 1) * b := by ring
      _ ≤ (img.width / b) * b := Nat.mul_le_mul_right _ (by omega)
      _ = b * (img.width / b) := Nat.mul_comm _ _
    · calc y * b + y1 < y * b + b := by omega
      _ = (y + 1) * b := by ring
      _ ≤ (img.height / b) * b := Nat.mul_le_mul_right _ (by omega)
      _ = b * (img.height / b) := Nat.mul_comm _ _
  · rw [rowMajor_map]
  · intro box hbox
    obtain ⟨x, hx, y, hy, rfl⟩ := mem_rowMajor.mp hbox
    rw [rowMajor_map]

/-- Witness for C2 at a concrete 3×2 image with box size 2 (the trailing
column is cropped). -/
theorem C2_box_partition_witness :
    0 < 2 ∧
    ((splitIntoBoxes { width := 3, height := 2, data := fun _ => 7 } (2 : ℤ)).size =
        { width := (2 : ℤ), height := (2 : ℤ) } ∧
      (∀ box ∈ (splitIntoBoxes { width := 3, height := 2, data := fun _ => 7 } (2 : ℤ)).data,
        ∀ p ∈ box.data, box.x * 2 + p.x < 2 * (3 / 2) ∧ box.y * 2 + p.y < 2 * (2 / 2)) ∧
      ((splitIntoBoxes { width := 3, height := 2, data := fun _ => 7 } (2 : ℤ)).data.map
          fun box => (box.x, box.y)) = rowMajor (3 / 2) (2 / 2) (fun x y => (x, y)) ∧
      (∀ box ∈ (splitIntoBoxes { width := 3, height := 2, data := fun _ => 7 } (2 : ℤ)).data,
        (box.data.map fun p => (p.x, p.y)) = rowMajor 2 2 fun x y => (x, y))) := by
  refine ⟨by decide, ?_⟩
  have h := C2_box_partition { width := 3, height := 2, data := fun _ => 7 } 2 (by decide)
  exact h

/-- Counterexample to C3's general clause: in the uniform 3×3 box of
color `(0, 0, 27)` every pixel's luminance equals the box's mean
luminance exactly — a tie, which the claim ("ties go to light") sends to
bit 1 — yet the program computes index bit 0 for every pixel, because the
binary64-summed mean it compares against is strictly above the common
luminance. -/
theorem C3_counterexample :
    (∀ p ∈ box27.data,
      Mean.le { total := totalLuminance box27.data, count := box27.data.length }
        (getLuminance p.color) = true) ∧
    (QImg.compressBoxFp box27).data.map (fun p => p.index) =
      [0, 0, 0, 0, 0, 0, 0, 0, 0] := by
  exact ⟨by decide, by decide⟩

/-- C3 as amended: compressing the white/white/black/black 2×2 image with
`boxSize = 2` yields a single box with `light = white`, `dark = black`
and index bits `1,1,0,0` in row-major order; in general a pixel's bit is
1 exactly when its binary64 luminance is at least the box's
binary64-summed mean — which coincides with the claim's exact `>=`-mean
rule away from the mean's rounding error, but sends exact ties to dark
whenever the float sum rounds the mean above the tied luminance. -/
theorem C3_amended :
    ((QImg.compressFp imgWhiteBlack 2).map fun c => c.boxes.data.map fun bx =>
        (bx.light, bx.dark, bx.data.map fun p => p.index)) =
      .ok [({ r := some 255, g := some 255, b := some 255 },
            { r := some 0, g := some 0, b := some 0 }, [1, 1, 0, 0])] ∧
    ∀ box : UncompressedBox,
      (QImg.compressBoxFp box).data = box.data.map fun p =>
        { x := p.x, y := p.y
          index :=
            if fpIsLight (getLuminanceFp p.color) (averageLuminanceFp box.data)
              then 1 else 0 } := by
  exact ⟨by decide, fun box => rfl⟩

/-- Counterexample to C6: the guard `if (!boxSize) throw` only rejects the
falsy `boxSize = 0`.  Compressing a 4×4 image with `boxSize = -1` does not
fail with `InvalidArgument`: it silently returns a `CompressedImage` with
an empty box list (the negative loop bounds of `splitIntoBoxes` never
execute). -/
theorem C6_counterexample :
    QImg.compress { width := 4, height := 4, data := fun _ => 7 } (-1) =
      .ok { boxes := { size := { width := 4, height := 4 }, data := [] }, boxSize := -1 } := by
  decide

/-- C6 as amended: `compress` fails (with `InvalidArgument`) exactly for
`boxSize = 0`; every negative `boxSize` is accepted and produces a
`CompressedImage` with an empty box list. -/
theorem C6_amended (img : ImageData) (b : ℤ) :
    (QImg.compress img b = .error .invalidArgument ↔ b = 0) ∧
    (b < 0 → ∃ c, QImg.compress img b = .ok c ∧ c.boxes.data = []) := by
  constructor
  · constructor
    · intro h
      by_contra hb
      simp only [QImg.compress, hb, if_false] at h
      exact Except.noConfusion h
    · intro h
      simp [QImg.compress, h]
  · intro hneg
    have hb0 : b ≠ 0 := by omega
    refine ⟨{ boxes := QImg.compressBoxes (splitIntoBoxes img b), boxSize := b },
      by simp [QImg.compress, hb0], ?_⟩
    simp only [QImg.compressBoxes]
    have hW : ((img.width : ℤ).fdiv b).toNat = 0 := by
      have := Int.fdiv_nonpos (a := (img.width : ℤ)) (b := b) (by omega) (by omega)
      omega
    have hH : ((img.height : ℤ).fdiv b).toNat = 0 := by
      have := Int.fdiv_nonpos (a := (img.height : ℤ)) (b := b) (by omega) (by omega)
      omega
    simp [splitIntoBoxes, hH, rowMajor]

/-- Witness for C6 as amended, at the 4×4 image and `boxSize = -1`. -/
theorem C6_amended_witness :
    ((QImg.compress { width := 4, height := 4, data := fun _ => 7 } (-1) =
        .error .invalidArgument ↔ (-1 : ℤ) = 0) ∧
      ((-1 : ℤ) < 0 → ∃ c,
        QImg.compress { width := 4, height := 4, data := fun _ => 7 } (-1) = .ok c ∧
        c.boxes.data = [])) :=
  C6_amended { width := 4, height := 4, data := fun _ => 7 } (-1)

/-- The floored average of channel values bounded by 255 is a defined
value bounded by 255. -/
theorem avgChannel_bound (l : List FullColorPixel) (f : FullColorPixel → ℕ) (hl : l ≠ [])
    (hf : ∀ p ∈ l, f p ≤ 255) :
    ∃ v, avgChannel (l.map f).sum l.length = some v ∧ v ≤ 255 := by
  have hlen : l.length ≠ 0 := fun hc => hl (List.length_eq_zero.mp hc)
  refine ⟨(l.map f).sum / l.length, by simp [avgChannel, hlen], ?_⟩
  have hsum : (l.map f).sum ≤ l.length * 255 := by
    calc (l.map f).sum ≤ (l.map fun _ => 255).sum :=
          List.sum_le_sum fun p hp => hf p hp
    _ = l.length * 255 := by simp [List.map_const, List.sum_replicate]
  calc (l.map f).sum / l.length ≤ l.length * 255 / l.length := Nat.div_le_div_right hsum
  _ = 255 := Nat.mul_div_cancel_left _ (Nat.pos_of_ne_zero hlen)

/-- Counterexample to C9: compressing a 1×1 black image with `boxSize = 1`
puts the single pixel in the light partition (its luminance `0` equals the
binary64 mean `0/1` exactly), leaving the dark partition empty; the dark
average color is then the JS NaN triple `0/0` (`none`), which is not a
valid 8-bit color — no defined fallback replaces it. -/
theorem C9_counterexample :
    (QImg.compressFp { width := 1, height := 1, data := fun _ => 0 } 1).map
        (fun c => c.boxes.data.map fun bx => bx.dark) =
      .ok [{ r := none, g := none, b := none }] := by
  decide

/-- Validity of a floored average color: a defined 8-bit color when the
averaged pixel list is non-empty (and its channels are 8-bit), the NaN
triple (JS `0/0`) when it is empty. -/
theorem averageColor_valid (l : List FullColorPixel)
    (hch : ∀ p ∈ l, p.color.r ≤ 255 ∧ p.color.g ≤ 255 ∧ p.color.b ≤ 255) :
    (l ≠ [] → ∃ r g b2, averageColor l = { r := some r, g := some g, b := some b2 } ∧
      r ≤ 255 ∧ g ≤ 255 ∧ b2 ≤ 255) ∧
    (l = [] → averageColor l = { r := none, g := none, b := none }) := by
  constructor
  · intro hne
    obtain ⟨r, hr, hr255⟩ := avgChannel_bound l (fun p => p.color.r) hne
      fun p hp => (hch p hp).1
    obtain ⟨g, hg, hg255⟩ := avgChannel_bound l (fun p => p.color.g) hne
      fun p hp => (hch p hp).2.1
    obtain ⟨b2, hb2, hb255⟩ := avgChannel_bound l (fun p => p.color.b) hne
      fun p hp => (hch p hp).2.2
    exact ⟨r, g, b2, by simp [averageColor, hr, hg, hb2], hr255, hg255, hb255⟩
  · intro he
    subst he
    simp [averageColor, avgChannel]

/-- C9 as amended: a stored partition average is a valid 8-bit color
exactly when that partition — as the program computes it, comparing each
binary64 luminance against the binary64-summed mean — is non-empty; the
empty partition's average is the NaN triple (JS `0/0`), which is not a
valid color.  Either partition can be empty: the dark one for a box whose
pixels all tie with the mean exactly (a single-pixel box), and the light
one when the rounded float mean strictly exceeds every pixel's luminance
(see `C10_counterexample`).  Compression does not throw in either
case. -/
theorem C9_amended (box : UncompressedBox)
    (hch : ∀ p ∈ box.data, p.color.r ≤ 255 ∧ p.color.g ≤ 255 ∧ p.color.b ≤ 255) :
    (lightPixelsFp box.data ≠ [] → ∃ r g b2,
      (QImg.compressBoxFp box).light = { r := some r, g := some g, b := some b2 } ∧
      r ≤ 255 ∧ g ≤ 255 ∧ b2 ≤ 255) ∧
    (lightPixelsFp box.data = [] →
      (QImg.compressBoxFp box).light = { r := none, g := none, b := none }) ∧
    (darkPixelsFp box.data ≠ [] → ∃ r g b2,
      (QImg.compressBoxFp box).dark = { r := some r, g := some g, b := some b2 } ∧
      r ≤ 255 ∧ g ≤ 255 ∧ b2 ≤ 255) ∧
    (darkPixelsFp box.data = [] →
      (QImg.compressBoxFp box).dark = { r := none, g := none, b := none }) := by
  have hL := averageColor_valid (lightPixelsFp box.data)
    fun p hp => hch p (List.mem_filter.mp hp).1
  have hD := averageColor_valid (darkPixelsFp box.data)
    fun p hp => hch p (List.mem_filter.mp hp).1
  exact ⟨hL.1, hL.2, hD.1, hD.2⟩

/-- Witness for C9 as amended, at the concrete white/black two-pixel box
(both program partitions non-empty). -/
theorem C9_amended_witness :
    ((∀ p ∈ wbBox.data, p.color.r ≤ 255 ∧ p.color.g ≤ 255 ∧ p.color.b ≤ 255) ∧
      lightPixelsFp wbBox.data ≠ [] ∧ darkPixelsFp wbBox.data ≠ []) ∧
    (∃ r g b2, (QImg.compressBoxFp wbBox).light =
      { r := some r, g := some g, b := some b2 } ∧ r ≤ 255 ∧ g ≤ 255 ∧ b2 ≤ 255) ∧
    (∃ r g b2, (QImg.compressBoxFp wbBox).dark =
      { r := some r, g := some g, b := some b2 } ∧ r ≤ 255 ∧ g ≤ 255 ∧ b2 ≤ 255) := by
  refine ⟨⟨by decide, by decide, by decide⟩, ?_, ?_⟩
  · exact (C9_amended wbBox (by decide)).1 (by decide)
  · exact (C9_amended wbBox (by decide)).2.2.1 (by decide)

/-- The element-wise magic comparison succeeds on any buffer that begins
with the 8 magic bytes. -/
theorem magicOk_self_append (m l : List Byte) (hm : m.length = 8)
    (hself : (List.zipWith (fun a b : Byte => a == b) m m).all id = true) :
    magicOk m (m ++ l) = true := by
  unfold magicOk
  rw [show (8 : ℕ) = m.length from hm.symm, List.take_left]
  exact hself

theorem gradImg_fromBuffer_magic (tail : List Byte) :
    GradImg.fromBuffer (GradImg.MAGIC ++ tail) = gradImgParse tail := by
  have hlen : GradImg.MAGIC.length = 8 := rfl
  have hdrop8 : (GradImg.MAGIC ++ tail).drop 8 = tail := List.drop_left' hlen
  have hmagic : magicOk GradImg.MAGIC (GradImg.MAGIC ++ tail) = true :=
    magicOk_self_append _ _ hlen (by decide)
  unfold GradImg.fromBuffer gradImgParse
  simp only [hdrop8, hmagic, Bool.not_true, Bool.false_eq_true, if_false]

theorem gradRgb_fromBuffer_magic (tail : List Byte) :
    GradRgb.fromBuffer (GradRgb.MAGIC ++ tail) = gradRgbParse tail := by
  have hlen : GradRgb.MAGIC.length = 8 := rfl
  have hdrop8 : (GradRgb.MAGIC ++ tail).drop 8 = tail := List.drop_left' hlen
  have hmagic : magicOk GradRgb.MAGIC (GradRgb.MAGIC ++ tail) = true :=
    magicOk_self_append _ _ hlen (by decide)
  unfold GradRgb.fromBuffer gradRgbParse
  simp only [hdrop8, hmagic, Bool.not_true, Bool.false_eq_true, if_false]

theorem magicOk_take16 (m data : List Byte) : magicOk m (data.take 16) = magicOk m data := by
  unfold magicOk
  rw [List.take_take]
  norm_num

/-- The gradient-codec constructors can only throw `InvalidArgument`,
never `FormatError`. -/
theorem gradImg_make_ne_formatError (boxes : ImageBoxes GradCompressedBox) (bs : ℤ)
    (gs : JsRat) : GradImgCompressedImage.make boxes bs gs ≠ .error .formatError := by
  unfold GradImgCompressedImage.make checkGradientScale
  split <;> simp [Except.map]

theorem gradRgb_make_ne_formatError (boxes : ImageBoxes GradRgbCompressedBox) (bs : ℤ)
    (gs : JsRat) : GradRgbCompressedImage.make boxes bs gs ≠ .error .formatError := by
  unfold GradRgbCompressedImage.make checkGradientScale
  split <;> simp [Except.map]

/-- Counterexample to C5: the magic check is an element-wise `every` over
the at most 8 bytes present, so a buffer that is a proper prefix of the
magic passes it.  The 1-byte buffer `[99]` (the first magic byte) does
not equal the 8-byte magic, yet `QImg.fromBuffer` does not fail with
`FormatError` — it decodes the missing header reads as `undefined` and
returns a `CompressedImage`. -/
theorem C5_counterexample :
    QImg.fromBuffer [(99 : Byte)] ≠ .error .formatError := by
  decide

/-- C5 as amended: `fromBuffer` fails with `FormatError` exactly when one
of the first `min(8, length)` bytes differs from the corresponding magic
byte (`magicOk`); in particular the check never reads past the 8-byte
prefix, and buffers shorter than 8 bytes that are prefixes of the magic
are not rejected.  This holds for all three codecs; the gradient codecs
can still fail later with `InvalidArgument` (zero gradient-scale byte),
but never with `FormatError`. -/
theorem C5_amended (data : List Byte) :
    (QImg.fromBuffer data = .error .formatError ↔ magicOk QImg.MAGIC data = false) ∧
    (GradImg.fromBuffer data = .error .formatError ↔ magicOk GradImg.MAGIC data = false) ∧
    (GradRgb.fromBuffer data = .error .formatError ↔ magicOk GradRgb.MAGIC data = false) := by
  refine ⟨?_, ?_, ?_⟩
  · simp only [QImg.fromBuffer, magicOk_take16]
    cases hm : magicOk QImg.MAGIC data <;> simp [hm]
  · simp only [GradImg.fromBuffer]
    cases hm : magicOk GradImg.MAGIC data
    · simp [hm]
    · simp only [hm, Bool.not_true, Bool.false_eq_true, if_false]
      exact iff_of_false (gradImg_make_ne_formatError _ _ _) (by simp)
  · simp only [GradRgb.fromBuffer]
    cases hm : magicOk GradRgb.MAGIC data
    · simp [hm]
    · simp only [hm, Bool.not_true, Bool.false_eq_true, if_false]
      exact iff_of_false (gradRgb_make_ne_formatError _ _ _) (by simp)

/-- Counterexample to C7: the codecs never reject a version.  A buffer
with the qimg magic and the never-emitted version pair (9, 9) is decoded
under the current layout assumptions instead of failing with
`FormatError`. -/
theorem C7_counterexample :
    QImg.fromBuffer bufVersion99 =
      .ok { boxes :=
              { size := { width := 1, height := 1 }
                data := [{ x := 0, y := 0, size := 1
                           light := { r := some 5, g := some 5, b := some 5 }
                           dark := { r := some 7, g := some 7, b := some 7 }
                           data := [{ x := 0, y := 0, index := 1 }] }] }
            boxSize := 1 } := by
  decide

/-- C7 as amended: no `fromBuffer` rejects a version.  `QImg.fromBuffer`
ignores the version pair entirely; `GradImg.fromBuffer` and
`GradRgb.fromBuffer` decode every version pair other than (0, 1) exactly
as the current version 0.2 (gradient-scale byte present), under those
assumptions rather than failing with `FormatError`. -/
theorem C7_amended :
    (∀ (v1 v2 w1 w2 : Byte) (rest : List Byte),
      QImg.fromBuffer (QImg.MAGIC ++ v1 :: v2 :: rest) =
        QImg.fromBuffer (QImg.MAGIC ++ w1 :: w2 :: rest)) ∧
    (∀ (v1 v2 : Byte) (rest : List Byte), ¬(v1 = 0 ∧ v2 = 1) →
      GradImg.fromBuffer (GradImg.MAGIC ++ v1 :: v2 :: rest) =
        GradImg.fromBuffer (GradImg.MAGIC ++ (0 : Byte) :: (2 : Byte) :: rest)) ∧
    (∀ (v1 v2 : Byte) (rest : List Byte), ¬(v1 = 0 ∧ v2 = 1) →
      GradRgb.fromBuffer (GradRgb.MAGIC ++ v1 :: v2 :: rest) =
        GradRgb.fromBuffer (GradRgb.MAGIC ++ (0 : Byte) :: (2 : Byte) :: rest)) := by
  have hbool : ∀ (v1 v2 : Byte), ¬(v1 = 0 ∧ v2 = 1) →
      (byteAt (v1 :: v2 :: ([] : List Byte)) 0 == 0 && byteAt (v1 :: v2 :: []) 1 == 1) = false := by
    intro v1 v2 hne
    have hv : ¬(v1.val = 0 ∧ v2.val = 1) := fun ⟨h1, h2⟩ =>
      hne ⟨Fin.ext h1, Fin.ext h2⟩
    rcases eq_or_ne v1.val 0 with h | h
    · have h2 : v2.val ≠ 1 := fun hc => hv ⟨h, hc⟩
      simp [byteAt_cons_zero, byteAt_cons_succ, h, h2]
    · simp [byteAt_cons_zero, byteAt_cons_succ, h]
  refine ⟨?_, ?_, ?_⟩
  · intro v1 v2 w1 w2 rest
    rfl
  · intro v1 v2 rest hne
    rw [gradImg_fromBuffer_magic, gradImg_fromBuffer_magic]
    have h1 : (byteAt (v1 :: v2 :: rest) 0 == 0 && byteAt (v1 :: v2 :: rest) 1 == 1) = false :=
      hbool v1 v2 hne
    unfold gradImgParse
    rw [h1]
    rfl
  · intro v1 v2 rest hne
    rw [gradRgb_fromBuffer_magic, gradRgb_fromBuffer_magic]
    have h1 : (byteAt (v1 :: v2 :: rest) 0 == 0 && byteAt (v1 :: v2 :: rest) 1 == 1) = false :=
      hbool v1 v2 hne
    unfold gradRgbParse
    rw [h1]
    rfl

/-- Witness for C7 as amended, at version pair (9, 9). -/
theorem C7_amended_witness :
    (QImg.fromBuffer (QImg.MAGIC ++ (9 : Byte) :: (9 : Byte) :: [(1 : Byte)]) =
        QImg.fromBuffer (QImg.MAGIC ++ (0 : Byte) :: (1 : Byte) :: [(1 : Byte)])) ∧
    (¬((9 : Byte) = 0 ∧ (9 : Byte) = 1) ∧
      GradImg.fromBuffer (GradImg.MAGIC ++ (9 : Byte) :: (9 : Byte) :: [(1 : Byte)]) =
        GradImg.fromBuffer (GradImg.MAGIC ++ (0 : Byte) :: (2 : Byte) :: [(1 : Byte)])) := by
  refine ⟨C7_amended.1 9 9 0 1 [1], by decide, C7_amended.2.1 9 9 [1] (by decide)⟩

/-- Error behavior of `QImgCompressedImage.toBuffer` on a well-formed
image (covered size an exact multiple of the box size, as every image the
code constructs satisfies). -/
theorem qimg_toBuffer_spec (qi : QImgCompressedImage) (W H : ℤ)
    (hb : 0 < qi.boxSize)
    (hw : qi.boxes.size.width = qi.boxSize * W)
    (hh : qi.boxes.size.height = qi.boxSize * H) :
    ((∃ e, qi.toBuffer = .error e) ↔
      255 < qi.boxSize ∨ 255 < W ∨ 255 < H ∨ 2 ^ 24 ≤ qi.boxes.data.length) ∧
    (∀ e, qi.toBuffer = .error e → e = .encodingLimitExceeded) := by
  have hq1 : qi.boxes.size.width.fdiv qi.boxSize = W := by
    rw [hw]; exact Int.mul_fdiv_cancel_left _ (by omega)
  have hq2 : qi.boxes.size.height.fdiv qi.boxSize = H := by
    rw [hh]; exact Int.mul_fdiv_cancel_left _ (by omega)
  simp only [QImgCompressedImage.toBuffer, hq1, hq2]
  split_ifs with h1 h2 h3 h4
  · exact ⟨iff_of_true ⟨_, rfl⟩ (Or.inl h1), fun e he => by cases he; rfl⟩
  · exact ⟨iff_of_true ⟨_, rfl⟩ (Or.inr (Or.inl h2)), fun e he => by cases he; rfl⟩
  · exact ⟨iff_of_true ⟨_, rfl⟩ (Or.inr (Or.inr (Or.inl h3))), fun e he => by cases he; rfl⟩
  · exact ⟨iff_of_true ⟨_, rfl⟩ (Or.inr (Or.inr (Or.inr h4))), fun e he => by cases he; rfl⟩
  · constructor
    · constructor
      · rintro ⟨e, he⟩
        exact he.elim
      · intro hdisj
        rcases hdisj with h | h | h | h <;> exact absurd h (by assumption)
    · intro e he
      exact he.elim

/-- Error behavior of `GradImgCompressedImage.toBuffer` on a well-formed
image. -/
theorem gradImg_toBuffer_spec (gi : GradImgCompressedImage) (W H : ℤ)
    (hb : 0 < gi.boxSize)
    (hw : gi.boxes.size.width = gi.boxSize * W)
    (hh : gi.boxes.size.height = gi.boxSize * H) :
    ((∃ e, gi.toBuffer = .error e) ↔
      255 < gi.boxSize ∨ 255 < W ∨ 255 < H ∨ 2 ^ 24 ≤ gi.boxes.data.length) ∧
    (∀ e, gi.toBuffer = .error e → e = .encodingLimitExceeded) := by
  have hq1 : gi.boxes.size.width.fdiv gi.boxSize = W := by
    rw [hw]; exact Int.mul_fdiv_cancel_left _ (by omega)
  have hq2 : gi.boxes.size.height.fdiv gi.boxSize = H := by
    rw [hh]; exact Int.mul_fdiv_cancel_left _ (by omega)
  simp only [GradImgCompressedImage.toBuffer, hq1, hq2]
  split_ifs with h1 h2 h3 h4
  · exact ⟨iff_of_true ⟨_, rfl⟩ (Or.inl h1), fun e he => by cases he; rfl⟩
  · exact ⟨iff_of_true ⟨_, rfl⟩ (Or.inr (Or.inl h2)), fun e he => by cases he; rfl⟩
  · exact ⟨iff_of_true ⟨_, rfl⟩ (Or.inr (Or.inr (Or.inl h3))), fun e he => by cases he; rfl⟩
  · exact ⟨iff_of_true ⟨_, rfl⟩ (Or.inr (Or.inr (Or.inr h4))), fun e he => by cases he; rfl⟩
  · constructor
    · constructor
      · rintro ⟨e, he⟩
        exact he.elim
      · intro hdisj
        rcases hdisj with h | h | h | h <;> exact absurd h (by assumption)
    · intro e he
      exact he.elim

/-- C4: for a well-formed `CompressedImage` (covered size an exact
multiple of the positive box size, with `W`/`H` the box-grid dimensions),
serialization fails if and only if `boxSize > 255`, or the grid is more
than 255 boxes wide, or more than 255 boxes high, or the record count is
at least `2²⁴`; every such failure is `EncodingLimitExceeded`.  Stated
for the `QImg` and `GradImg` serializers. -/
theorem C4_encoding_limits (qi : QImgCompressedImage) (gi : GradImgCompressedImage)
    (QW QH GW GH : ℤ)
    (hqb : 0 < qi.boxSize)
    (hqw : qi.boxes.size.width = qi.boxSize * QW)
    (hqh : qi.boxes.size.height = qi.boxSize * QH)
    (hgb : 0 < gi.boxSize)
    (hgw : gi.boxes.size.width = gi.boxSize * GW)
    (hgh : gi.boxes.size.height = gi.boxSize * GH) :
    ((∃ e, qi.toBuffer = .error e) ↔
      255 < qi.boxSize ∨ 255 < QW ∨ 255 < QH ∨ 2 ^ 24 ≤ qi.boxes.data.length) ∧
    (∀ e, qi.toBuffer = .error e → e = .encodingLimitExceeded) ∧
    ((∃ e, gi.toBuffer = .error e) ↔
      255 < gi.boxSize ∨ 255 < GW ∨ 255 < GH ∨ 2 ^ 24 ≤ gi.boxes.data.length) ∧
    (∀ e, gi.toBuffer = .error e → e = .encodingLimitExceeded) := by
  obtain ⟨hq1, hq2⟩ := qimg_toBuffer_spec qi QW QH hqb hqw hqh
  obtain ⟨hg1, hg2⟩ := gradImg_toBuffer_spec gi GW GH hgb hgw hgh
  exact ⟨hq1, hq2, hg1, hg2⟩

/-- Witness for C4 at a `QImg` image 256 boxes wide (the specification's
concrete scenario, which must fail) and a 1×1-box `GradImg` image (which
must succeed). -/
theorem C4_encoding_limits_witness :
    ((0 : ℤ) < 1 ∧ (256 : ℤ) = 1 * 256 ∧ (1 : ℤ) = 1 * 1) ∧
    (∃ e, ({ boxes := { size := { width := 256, height := 1 }, data := [] }, boxSize := 1 } :
        QImgCompressedImage).toBuffer = .error e) ∧
    ¬(∃ e, ({ boxes := { size := { width := 1, height := 1 }, data := [] }, boxSize := 1
              gradientScale := { num := 128, den := 255 } } :
        GradImgCompressedImage).toBuffer = .error e) := by
  refine ⟨⟨by decide, by decide, by decide⟩, ?_, ?_⟩
  · have h := (C4_encoding_limits
      { boxes := { size := { width := 256, height := 1 }, data := [] }, boxSize := 1 }
      { boxes := { size := { width := 1, height := 1 }, data := [] }, boxSize := 1
        gradientScale := { num := 128, den := 255 } }
      256 1 1 1 (by decide) (by decide) (by decide) (by decide) (by decide) (by decide)).1
    exact h.mpr (by decide)
  · have h := (C4_encoding_limits
      { boxes := { size := { width := 256, height := 1 }, data := [] }, boxSize := 1 }
      { boxes := { size := { width := 1, height := 1 }, data := [] }, boxSize := 1
        gradientScale := { num := 128, den := 255 } }
      256 1 1 1 (by decide) (by decide) (by decide) (by decide) (by decide) (by decide)).2.2.1
    intro hc
    exact absurd (h.mp hc) (by decide)

